import Mathlib

/-!
Verification of the cost/utilization aggregation engine of the
aws-cost-hygiene-guard repository (src/lambda/index.mjs, v2, together
with the earlier v1/v1.1 revisions shipped in the repository).

JavaScript numbers are modelled as exact rationals: every arithmetic
operation the embedded code performs on the inputs considered here is
exact in IEEE-754 binary64 whenever the stated results are (all the
concrete scenarios below use only powers of two, small integers, and
the prices 0.25 / 1.25, all exactly representable), so the rational
model agrees with the double-precision evaluation on those inputs.
A JavaScript value that may be `null`/`undefined`, or a parsed amount
that may be non-finite (NaN/Infinity), is modelled as an `Option`.
JavaScript strings are modelled as `List Char`; the opaque report
texts that are only concatenated and compared are modelled as `String`.
-/

namespace CostHygiene

/-- One CloudWatch `GetMetricStatistics` datapoint, keeping the two
statistic fields the source reads (`dp.Average`, `dp.Sum`); a field the
response does not carry is `none` (JS `undefined`). -/
structure Datapoint where
  Average : Option ℚ
  Sum : Option ℚ
deriving DecidableEq

/-- The statistic requested from CloudWatch: `"Average"` or `"Sum"`
(the `statistic` parameter of `getMetricAggregate` in index.mjs). -/
inductive StatKind where
  | average
  | sum
deriving DecidableEq

/-- Field selection `dp[key]` performed by `getMetricAggregate`
(index.mjs line 172): the statistic name indexes the datapoint. -/
def statLookup : StatKind → Datapoint → Option ℚ
  | .average, dp => dp.Average
  | .sum, dp => dp.Sum

/-- Embedding of `getMetricAggregate` (index.mjs lines 148-174), the
pure part acting on the already-fetched `Datapoints` array: empty input
yields `null` (here `none`); otherwise the per-datapoint values (with
`dp[key] ?? 0` for a missing field) are folded with `+` from `0` and
divided by the number of datapoints.  The same computation appears in
v1 as `getAverageCpuForInstance` (part_000 lines 23-50) specialised to
the `Average` statistic. -/
def getMetricAggregate (statistic : StatKind) (datapoints : List Datapoint) : Option ℚ :=
  if datapoints.length = 0 then none
  else some ((datapoints.foldl (fun acc dp => acc + (statLookup statistic dp).getD 0) 0)
              / (datapoints.length : ℚ))

/-- Embedding of the inner helper `getDynamoCapacitySum` of
`buildDynamoSection` (index.mjs lines 276-292): empty `Datapoints`
yields `0`; otherwise the `Sum` fields (missing treated as `0`) are
added up — no division by the bucket count. -/
def getDynamoCapacitySum (datapoints : List Datapoint) : ℚ :=
  if datapoints.length = 0 then 0
  else datapoints.foldl (fun acc dp => acc + dp.Sum.getD 0) 0

/-- Idle classification outcomes.  The source renders them as the
`IDLE?` flag, the absence of the flag, and the `n/a` CPU column
(index.mjs lines 221-251; part_000 lines 88-92). -/
inductive IdleClass where
  | Idle
  | Active
  | Unknown
deriving DecidableEq

/-- Embedding of the idle classification applied to each instance:
`avgCpu` is `null` (no datapoints) or a number; the source tests
`typeof inst.avgCpu === "number" && inst.avgCpu < THRESHOLD` for
idleness and renders `n/a` when the value is absent (index.mjs
lines 221-251; part_000 lines 88-92). -/
def classifyIdle (avgCpu : Option ℚ) (thresholdPercent : ℚ) : IdleClass :=
  match avgCpu with
  | none => .Unknown
  | some v => if v < thresholdPercent then .Idle else .Active

/-- Pricing constant `DDB_READ_PRICE_PER_MILLION` (index.mjs line 263). -/
def DDB_READ_PRICE_PER_MILLION : ℚ := 0.25

/-- Pricing constant `DDB_WRITE_PRICE_PER_MILLION` (index.mjs line 264). -/
def DDB_WRITE_PRICE_PER_MILLION : ℚ := 1.25

/-- Pricing constant `DDB_STORAGE_PRICE_PER_GB_MONTH` (index.mjs line 265). -/
def DDB_STORAGE_PRICE_PER_GB_MONTH : ℚ := 0.25

/-- Lookback constant `DDB_LOOKBACK_DAYS` (index.mjs line 261). -/
def DDB_LOOKBACK_DAYS : ℚ := 7

/-- The per-table cost breakdown computed in `buildDynamoSection`. -/
structure TableCostBreakdown where
  readsCost : ℚ
  writesCost : ℚ
  storageCost : ℚ
  tableCost : ℚ
deriving DecidableEq

/-- Embedding of the per-table monthly cost estimate of
`buildDynamoSection` (index.mjs lines 330-358): binary-GB storage cost,
30/7 window-to-month scaling of the consumed read/write unit totals,
per-million pricing, and the total as the sum of the three parts. -/
def estimateMonthlyCost (sizeBytes totalReadUnits totalWriteUnits : ℚ) : TableCostBreakdown :=
  let sizeGB := sizeBytes / (1024 * 1024 * 1024)
  let scaleToMonth := 30 / DDB_LOOKBACK_DAYS
  let estMonthlyReadUnits := totalReadUnits * scaleToMonth
  let estMonthlyWriteUnits := totalWriteUnits * scaleToMonth
  let readsCost := estMonthlyReadUnits / 1000000 * DDB_READ_PRICE_PER_MILLION
  let writesCost := estMonthlyWriteUnits / 1000000 * DDB_WRITE_PRICE_PER_MILLION
  let storageCost := sizeGB * DDB_STORAGE_PRICE_PER_GB_MONTH
  { readsCost := readsCost
    writesCost := writesCost
    storageCost := storageCost
    tableCost := readsCost + writesCost + storageCost }

/-- The sentinel string `"(no value)"` used by `parseTagValue`. -/
def noValueSentinel : List Char := "(no value)".data

/-- Embedding of `parseTagValue` (index.mjs lines 102-110; identical in
part_001 lines 73-81): an empty `rawKey` is falsy and yields the
sentinel; a matching `"{tagKey}$"` leading segment is stripped, an empty
remainder (falsy) yields the sentinel; otherwise `rawKey` is returned
unchanged. -/
def parseTagValue (rawKey tagKey : List Char) : List Char :=
  if rawKey = [] then noValueSentinel
  else
    let p := tagKey ++ ['$']
    if p.isPrefixOf rawKey then
      let value := rawKey.drop p.length
      if value = [] then noValueSentinel else value
    else rawKey

/-- One group of a Cost Explorer `ResultsByTime` bucket as the source
reads it: `group.Keys[0]` may be missing (`none`), and the parsed
`UnblendedCost.Amount` is `none` when `parseFloat` produced a
non-finite value (NaN/Infinity), otherwise the finite amount. -/
structure BillingGroup where
  rawKey : Option (List Char)
  amount : Option ℚ

/-- The JavaScript accumulation `totals[k] = (totals[k] || 0) + amt` on
a plain object, modelled on an association list in property insertion
order: an existing key is updated in place, a new key is appended. -/
def upsertTotal {K : Type} [DecidableEq K] : List (K × ℚ) → K → ℚ → List (K × ℚ)
  | [], k, amt => [(k, amt)]
  | (k', v) :: rest, k, amt =>
    if k' = k then (k', v + amt) :: rest
    else (k', v) :: upsertTotal rest k amt

/-- Reading `totals[k]`, defaulting a missing property to `0`. -/
def lookupTotal {K : Type} [DecidableEq K] : List (K × ℚ) → K → ℚ
  | [], _ => 0
  | (k', v) :: rest, k => if k' = k then v else lookupTotal rest k

/-- One step of the accumulation loop body shared by
`getCostByServiceLast7Days` and `getCostByTagLast7Days` (index.mjs
lines 84-92 and 128-137): a non-finite parsed amount is skipped
(`continue`); otherwise the group's amount is added to its key's
running total. -/
def accumulateStep {K : Type} [DecidableEq K] (keyOf : BillingGroup → K)
    (totals : List (K × ℚ)) (g : BillingGroup) : List (K × ℚ) :=
  match g.amount with
  | none => totals
  | some amt => upsertTotal totals (keyOf g) amt

/-- The nested `for day ... for group ...` accumulation over a Cost
Explorer response (`ResultsByTime`, each bucket carrying its `Groups`). -/
def accumulateBy {K : Type} [DecidableEq K] (keyOf : BillingGroup → K)
    (days : List (List BillingGroup)) : List (K × ℚ) :=
  days.foldl (fun totals day => day.foldl (accumulateStep keyOf) totals) []

/-- Per-tag-value accumulation of `getCostByTagLast7Days` (index.mjs
lines 126-137): the key is `parseTagValue(group.Keys[0] ?? "", tagKey)`. -/
def accumulateTag (tagKey : List Char) (days : List (List BillingGroup)) :
    List (List Char × ℚ) :=
  accumulateBy (fun g => parseTagValue (g.rawKey.getD []) tagKey) days

/-- Per-service accumulation of `getCostByServiceLast7Days` (index.mjs
lines 82-92): the key is `group.Keys[0] ?? "UNKNOWN"`. -/
def accumulateService (days : List (List BillingGroup)) : List (List Char × ℚ) :=
  accumulateBy (fun g => g.rawKey.getD "UNKNOWN".data) days

/-- The JavaScript sort comparator `(a, b) => b.amount - a.amount` as a
boolean "a may precede b" relation: `b.amount - a.amount <= 0`, i.e.
`b.amount <= a.amount`. -/
def rankLE {K : Type} (a b : K × ℚ) : Bool := decide (b.2 ≤ a.2)

/-- Embedding of `Object.entries(totals).map(...).sort((a, b) =>
b.amount - a.amount)` (index.mjs lines 94-96 and 139-141): a stable
sort (guaranteed by the ECMAScript specification for `Array.sort`) of
the insertion-ordered entries, descending by amount.  A stable sorted
permutation under a total preorder is unique, so `mergeSort` computes
exactly the JavaScript result. -/
def rank {K : Type} (totals : List (K × ℚ)) : List (K × ℚ) :=
  totals.mergeSort rankLE

/-- The ranked by-service array returned by `getCostByServiceLast7Days`
(its pure part, acting on the fetched `ResultsByTime`). -/
def getCostByServiceArr (days : List (List BillingGroup)) : List (List Char × ℚ) :=
  rank (accumulateService days)

/-- The ranked by-tag-value array returned by `getCostByTagLast7Days`
(its pure part, acting on the fetched `ResultsByTime`). -/
def getCostByTagArr (tagKey : List Char) (days : List (List BillingGroup)) :
    List (List Char × ℚ) :=
  rank (accumulateTag tagKey days)

/-- The placeholder section the handler substitutes when
`buildEc2Section` throws (index.mjs line 431): title line present,
narrative an error notice. -/
def ec2ErrorNotice : String := "=== EC2 ===\nError collecting EC2 utilization.\n\n"

/-- The placeholder section the handler substitutes when
`buildDynamoSection` throws (index.mjs lines 440-441). -/
def ddbErrorNotice : String := "=== DynamoDB ===\nError collecting DynamoDB utilization.\n\n"

/-- Outcomes of the four external collaborator calls the v2 handler
makes before building the Slack text, each either a success value (the
pure content computed from the response) or a thrown error.  The EC2
and DynamoDB section builders are taken at their section-level result:
a success carries the rendered section text (and, for DynamoDB, the
estimated monthly cost); an error is a throw out of the builder.  For
EC2 every collaborator failure escapes the builder (nothing in
`buildEc2Section` is caught); for DynamoDB only a `ListTables` failure
does — the section-level outcome of the DynamoDB pipeline is
`dynamoCollabOutcome`. -/
structure CollabResults where
  serviceDays : Except Unit (List (List BillingGroup))
  ec2Section : Except Unit String
  dynamoSection : Except Unit (String × ℚ)
  tagDays : Except Unit (List (List BillingGroup))

/-- The observable outcome of a successful handler run: the truncated
ranked lists that are rendered and returned, the two resource-section
texts in their concatenation order, the optional DynamoDB estimate, the
tag sub-report (absent when no tag key is configured, an error marker
when the tag query failed), and the fact that Slack delivery was
attempted and status 200 returned. -/
structure RunReport where
  topServices : List (List Char × ℚ)
  ec2Part : String
  ddbPart : String
  ddbEstimatedMonthlyCost : Option ℚ
  tagTop : Option (Except Unit (List (List Char × ℚ)))
  deliveryAttempted : Bool
  statusCode : Nat

/-- Embedding of the v2 `handler` control flow (index.mjs lines
416-501): the by-service billing query runs inside the outer `try`
only, so its failure propagates out of the handler (`throw err`, line
499) and no report is produced; the EC2 and DynamoDB builders and the
by-tag billing query each run inside their own `try`/`catch` and fail
soft into placeholder content; `postToSlack` is then always reached and
status 200 returned. -/
def runHandler (costTagKey : List Char) (c : CollabResults) : Except Unit RunReport :=
  match c.serviceDays with
  | .error e => .error e
  | .ok days =>
    let topServices := (getCostByServiceArr days).take 10
    let ec2Part :=
      match c.ec2Section with
      | .ok t => t
      | .error _ => ec2ErrorNotice
    let ddbRes :=
      match c.dynamoSection with
      | .ok tc => (tc.1, some tc.2)
      | .error _ => (ddbErrorNotice, (none : Option ℚ))
    let tagTop :=
      if costTagKey = [] then none
      else some
        (match c.tagDays with
         | .ok tdays => Except.ok ((getCostByTagArr costTagKey tdays).take 10)
         | .error _ => Except.error ())
    .ok
      { topServices := topServices
        ec2Part := ec2Part
        ddbPart := ddbRes.1
        ddbEstimatedMonthlyCost := ddbRes.2
        tagTop := tagTop
        deliveryAttempted := true
        statusCode := 200 }

/-! ## Helper lemmas -/

lemma foldl_add_eq {α : Type} (f : α → ℚ) (l : List α) (a : ℚ) :
    l.foldl (fun acc x => acc + f x) a = a + (l.map f).sum := by
  induction l generalizing a with
  | nil => simp
  | cons x xs ih => simp [ih, add_assoc]

lemma estimateMonthlyCost_readsCost (s r w : ℚ) :
    (estimateMonthlyCost s r w).readsCost
      = r * (30 / 7) / 1000000 * DDB_READ_PRICE_PER_MILLION := by
  simp [estimateMonthlyCost, DDB_LOOKBACK_DAYS]

lemma estimateMonthlyCost_writesCost (s r w : ℚ) :
    (estimateMonthlyCost s r w).writesCost
      = w * (30 / 7) / 1000000 * DDB_WRITE_PRICE_PER_MILLION := by
  simp [estimateMonthlyCost, DDB_LOOKBACK_DAYS]

lemma estimateMonthlyCost_storageCost (s r w : ℚ) :
    (estimateMonthlyCost s r w).storageCost
      = s / (1024 * 1024 * 1024) * DDB_STORAGE_PRICE_PER_GB_MONTH := by
  simp [estimateMonthlyCost]

lemma estimateMonthlyCost_tableCost (s r w : ℚ) :
    (estimateMonthlyCost s r w).tableCost
      = (estimateMonthlyCost s r w).readsCost + (estimateMonthlyCost s r w).writesCost
        + (estimateMonthlyCost s r w).storageCost := by
  simp [estimateMonthlyCost]

lemma isPrefixOf_append_self (p t : List Char) : p.isPrefixOf (p ++ t) = true := by
  induction p with
  | nil => simp [List.isPrefixOf]
  | cons a p ih => simp [List.isPrefixOf, ih]

lemma lookupTotal_upsertTotal {K : Type} [DecidableEq K] (t : List (K × ℚ)) (k k' : K)
    (amt : ℚ) :
    lookupTotal (upsertTotal t k amt) k' = lookupTotal t k' + if k = k' then amt else 0 := by
  induction t with
  | nil =>
    by_cases h : k = k' <;> simp [upsertTotal, lookupTotal, h]
  | cons hd tl ih =>
    obtain ⟨k0, v0⟩ := hd
    by_cases h0 : k0 = k
    · subst h0
      by_cases h1 : k0 = k'
      · subst h1
        simp [upsertTotal, lookupTotal, add_comm]
      · simp [upsertTotal, lookupTotal, h1]
    · by_cases h1 : k0 = k'
      · subst h1
        have h0' : ¬k = k0 := fun h => h0 h.symm
        simp [upsertTotal, lookupTotal, h0, h0']
      · simp [upsertTotal, lookupTotal, h0, h1, ih]

lemma lookupTotal_foldl_step {K : Type} [DecidableEq K] (keyOf : BillingGroup → K) :
    ∀ (gs : List BillingGroup) (t : List (K × ℚ)) (k : K),
      lookupTotal (gs.foldl (accumulateStep keyOf) t) k
        = lookupTotal t k
          + (((gs.filterMap (fun g => g.amount.map (fun a => (keyOf g, a)))).filter
              (fun e => decide (e.1 = k))).map Prod.snd).sum := by
  intro gs
  induction gs with
  | nil => intro t k; simp
  | cons g gs ih =>
    intro t k
    cases hga : g.amount with
    | none => simp [accumulateStep, hga, ih]
    | some amt =>
      by_cases hk : keyOf g = k
      · rw [List.foldl_cons]
        simp only [accumulateStep, hga]
        rw [ih, lookupTotal_upsertTotal]
        simp [List.filterMap_cons, hga, hk]
        ring
      · rw [List.foldl_cons]
        simp only [accumulateStep, hga]
        rw [ih, lookupTotal_upsertTotal]
        simp [List.filterMap_cons, hga, hk]

lemma foldl_foldl_flatten {α β : Type} (f : β → α → β) :
    ∀ (days : List (List α)) (init : β),
      days.foldl (fun t day => day.foldl f t) init = days.flatten.foldl f init := by
  intro days
  induction days with
  | nil => intro init; rfl
  | cons d ds ih => intro init; simp [List.foldl_append, ih]

lemma foldl_step_filter {K : Type} [DecidableEq K] (keyOf : BillingGroup → K) :
    ∀ (gs : List BillingGroup) (t : List (K × ℚ)),
      gs.foldl (accumulateStep keyOf) t
        = (gs.filter (fun g => g.amount.isSome)).foldl (accumulateStep keyOf) t := by
  intro gs
  induction gs with
  | nil => intro t; rfl
  | cons g gs ih =>
    intro t
    cases hga : g.amount with
    | none => simp [List.filter_cons, hga, accumulateStep, ih]
    | some amt => simp [List.filter_cons, hga, accumulateStep, ih]

lemma flatten_map_filter {α : Type} (p : α → Bool) : ∀ (ls : List (List α)),
    (ls.map (fun l => l.filter p)).flatten = ls.flatten.filter p := by
  intro ls
  induction ls with
  | nil => rfl
  | cons l ls ih => simp only [List.map_cons, List.flatten_cons, List.filter_append, ih]

/-- Claim C2: the window total of consumed capacity units feeding the
monthly cost estimate (`getDynamoCapacitySum`, a plain sum of the
per-bucket `Sum` samples) equals the MetricAggregator's arithmetic mean
of the per-bucket values multiplied by the number of buckets in the
window that carry data (undoing the per-bucket averaging), and an empty
sample sequence contributes a window total of `0`. -/
theorem claim2_window_total_eq_mean_times_buckets (datapoints : List Datapoint) :
    getDynamoCapacitySum datapoints =
      match getMetricAggregate .sum datapoints with
      | none => 0
      | some v => v * (datapoints.length : ℚ) := by
  rcases datapoints with _ | ⟨d, ds⟩
  · simp [getDynamoCapacitySum, getMetricAggregate]
  · have hlen : ((ds.length : ℚ) + 1) ≠ 0 := by positivity
    simp [getDynamoCapacitySum, getMetricAggregate, statLookup, div_mul_cancel₀, hlen]

/-- Claim C3: `aggregate` (the pure part of `getMetricAggregate`)
returns absent exactly on the empty sample sequence and otherwise the
arithmetic mean of the per-bucket values, a per-sample missing value
counting as `0` in the fold, uniformly for the Average and the Sum
statistic kinds. -/
theorem claim3_aggregate_is_mean (statistic : StatKind) (datapoints : List Datapoint) :
    getMetricAggregate statistic datapoints =
      if datapoints = [] then none
      else some ((datapoints.map (fun dp => (statLookup statistic dp).getD 0)).sum
                  / (datapoints.length : ℚ)) := by
  rcases datapoints with _ | ⟨d, ds⟩
  · simp [getMetricAggregate]
  · simp [getMetricAggregate, foldl_add_eq]

/-- Claim C4: `classifyIdle` is `Unknown` exactly when the aggregate is
absent, irrespective of the threshold; a present value is `Idle` exactly
when it is strictly below the threshold, and a value equal to the
threshold is `Active`. -/
theorem claim4_classifyIdle_cases (a : Option ℚ) (t : ℚ) :
    (classifyIdle a t = IdleClass.Unknown ↔ a = none)
    ∧ (∀ v : ℚ, classifyIdle (some v) t = IdleClass.Idle ↔ v < t)
    ∧ classifyIdle (some t) t = IdleClass.Active := by
  refine ⟨?_, fun v => ?_, ?_⟩
  · rcases a with _ | v
    · simp [classifyIdle]
    · by_cases hv : v < t <;> simp [classifyIdle, hv]
  · by_cases hv : v < t <;> simp [classifyIdle, hv]
  · simp [classifyIdle]

/-- Claim C6: the per-table estimate uses
`storageCost = (sizeBytes / 1024 ^ 3) * pricePerGBMonth` with binary GB,
`readsCost = (monthlyReadUnits / 1000000) * pricePerMillionReads` (and
the analogous formula for writes) after scaling the window totals by
`30 / windowLengthInDays` with a 7-day window, and
`tableCost = readsCost + writesCost + storageCost`; concretely, for
`sizeBytes = 3 * 1024 ^ 3`, zero consumed units and price `0.25`
per GB-month it yields storage cost `0.75`, zero read/write cost and
total `0.75` (all operations involved are exact in binary64, so the
rational evaluation coincides with the IEEE-754 one). -/
theorem claim6_cost_formulas_and_scenarioC (s r w : ℚ) :
    (estimateMonthlyCost s r w).storageCost
        = s / 1024 ^ 3 * DDB_STORAGE_PRICE_PER_GB_MONTH
    ∧ (estimateMonthlyCost s r w).readsCost
        = r * (30 / 7) / 1000000 * DDB_READ_PRICE_PER_MILLION
    ∧ (estimateMonthlyCost s r w).writesCost
        = w * (30 / 7) / 1000000 * DDB_WRITE_PRICE_PER_MILLION
    ∧ (estimateMonthlyCost s r w).tableCost
        = (estimateMonthlyCost s r w).readsCost + (estimateMonthlyCost s r w).writesCost
          + (estimateMonthlyCost s r w).storageCost
    ∧ estimateMonthlyCost (3 * 1024 ^ 3) 0 0
        = { readsCost := 0, writesCost := 0, storageCost := 0.75, tableCost := 0.75 } := by
  refine ⟨?_, estimateMonthlyCost_readsCost s r w, estimateMonthlyCost_writesCost s r w,
    estimateMonthlyCost_tableCost s r w, ?_⟩
  · rw [estimateMonthlyCost_storageCost]
    norm_num
  · simp only [estimateMonthlyCost, DDB_LOOKBACK_DAYS, DDB_READ_PRICE_PER_MILLION,
      DDB_WRITE_PRICE_PER_MILLION, DDB_STORAGE_PRICE_PER_GB_MONTH,
      TableCostBreakdown.mk.injEq]
    norm_num

/-- Claim C9: holding pricing and the other inputs fixed,
`estimateMonthlyCost` is linear in `sizeBytes` (doubling it exactly
doubles the storage cost and leaves the read and write costs unchanged)
and, symmetrically, linear in each consumed-unit total: scaling any one
input by a factor `c` scales exactly its own cost component by `c` and
leaves the other two components unchanged. -/
theorem claim9_linearity (s r w c : ℚ) :
    ((estimateMonthlyCost (2 * s) r w).storageCost
        = 2 * (estimateMonthlyCost s r w).storageCost
      ∧ (estimateMonthlyCost (2 * s) r w).readsCost = (estimateMonthlyCost s r w).readsCost
      ∧ (estimateMonthlyCost (2 * s) r w).writesCost = (estimateMonthlyCost s r w).writesCost)
    ∧ ((estimateMonthlyCost (c * s) r w).storageCost
        = c * (estimateMonthlyCost s r w).storageCost
      ∧ (estimateMonthlyCost (c * s) r w).readsCost = (estimateMonthlyCost s r w).readsCost
      ∧ (estimateMonthlyCost (c * s) r w).writesCost = (estimateMonthlyCost s r w).writesCost)
    ∧ ((estimateMonthlyCost s (c * r) w).readsCost
        = c * (estimateMonthlyCost s r w).readsCost
      ∧ (estimateMonthlyCost s (c * r) w).storageCost = (estimateMonthlyCost s r w).storageCost
      ∧ (estimateMonthlyCost s (c * r) w).writesCost = (estimateMonthlyCost s r w).writesCost)
    ∧ ((estimateMonthlyCost s r (c * w)).writesCost
        = c * (estimateMonthlyCost s r w).writesCost
      ∧ (estimateMonthlyCost s r (c * w)).storageCost = (estimateMonthlyCost s r w).storageCost
      ∧ (estimateMonthlyCost s r (c * w)).readsCost = (estimateMonthlyCost s r w).readsCost) := by
  refine ⟨⟨?_, ?_, ?_⟩, ⟨?_, ?_, ?_⟩, ⟨?_, ?_, ?_⟩, ?_, ?_, ?_⟩ <;>
    simp only [estimateMonthlyCost_readsCost, estimateMonthlyCost_writesCost,
      estimateMonthlyCost_storageCost] <;>
    ring

/-- Claim C7: `parseTagValue` strips a present `"{tagKey}$"` leading
segment and returns the non-empty remainder, returns the sentinel
`"(no value)"` when the stripped remainder is empty or the raw key is
empty, and returns the raw key unchanged when the expected leading
segment is absent; including the four concrete instances of the spec. -/
theorem claim7_parseTagValue (tag t raw : List Char) :
    parseTagValue (tag ++ '$' :: t) tag = (if t = [] then noValueSentinel else t)
    ∧ parseTagValue [] tag = noValueSentinel
    ∧ (raw ≠ [] → (tag ++ ['$']).isPrefixOf raw = false → parseTagValue raw tag = raw)
    ∧ parseTagValue "Project$web".data "Project".data = "web".data
    ∧ parseTagValue "Project$".data "Project".data = noValueSentinel
    ∧ parseTagValue "".data "Project".data = noValueSentinel
    ∧ parseTagValue "Other$x".data "Project".data = "Other$x".data := by
  have hassoc : tag ++ '$' :: t = (tag ++ ['$']) ++ t := by simp
  refine ⟨?_, ?_, ?_, by decide, by decide, by decide, by decide⟩
  · have hne : ¬((tag ++ ['$']) ++ t = []) := by simp
    rw [hassoc]
    simp only [parseTagValue]
    rw [if_neg hne, isPrefixOf_append_self, if_pos rfl, List.drop_left]
  · simp [parseTagValue]
  · intro h1 h2
    simp [parseTagValue, h1, h2]

/-- Claim C7 witness: the defensive-fallback case applied at the
concrete input `("Other$x", "Project")`. -/
theorem claim7_parseTagValue_witness :
    parseTagValue "Other$x".data "Project".data = "Other$x".data :=
  (claim7_parseTagValue ("Project".data) [] ("Other$x".data)).2.2.1 (by decide) (by decide)

/-- Claim C8: the per-tag accumulation of `getCostByTagLast7Days` sums
amounts per parsed key across all time buckets; groups with a
non-finite parsed amount are skipped — the accumulation equals the one
over the input with those groups removed, so they contribute nothing to
any key's total and every remaining group is still accumulated — and
each key's accumulated total is the sum of the finite amounts of the
groups parsing to that key. -/
theorem claim8_accumulate_skips_nonfinite (tagKey : List Char)
    (days : List (List BillingGroup)) :
    accumulateTag tagKey days
        = accumulateTag tagKey (days.map (fun day => day.filter (fun g => g.amount.isSome)))
    ∧ ∀ k : List Char,
        lookupTotal (accumulateTag tagKey days) k
          = (((days.flatten.filterMap
                (fun g => g.amount.map
                  (fun a => (parseTagValue (g.rawKey.getD []) tagKey, a)))).filter
              (fun e => decide (e.1 = k))).map Prod.snd).sum := by
  constructor
  · unfold accumulateTag accumulateBy
    rw [foldl_foldl_flatten, foldl_foldl_flatten, flatten_map_filter, ← foldl_step_filter]
  · intro k
    unfold accumulateTag accumulateBy
    rw [foldl_foldl_flatten, lookupTotal_foldl_step]
    simp [lookupTotal]

lemma rankLE_trans {K : Type} : ∀ a b c : K × ℚ, rankLE a b → rankLE b c → rankLE a c := by
  intro a b c hab hbc
  simp only [rankLE, decide_eq_true_eq] at hab hbc ⊢
  exact le_trans hbc hab

lemma rankLE_total {K : Type} : ∀ a b : K × ℚ, rankLE a b || rankLE b a := by
  intro a b
  simp only [rankLE]
  rcases le_total b.2 a.2 with h | h <;> simp [h]

/-- Claim C5 counterexample: on the input mapping built in insertion
order `"b" ↦ 1, "a" ↦ 1`, the code's `sort((a, b) => b.amount -
a.amount)` is a stable sort with no key tie-break, so the two
equal-amount entries stay in insertion order `("b", 1), ("a", 1)` —
not in the ascending-key order `("a", 1), ("b", 1)` the claim
demands. -/
theorem claim5_counterexample :
    rank [(("b" : String), (1 : ℚ)), ("a", 1)] = [("b", 1), ("a", 1)]
    ∧ rank [(("b" : String), (1 : ℚ)), ("a", 1)] ≠ [("a", 1), ("b", 1)] := by
  have h : rank [(("b" : String), (1 : ℚ)), ("a", 1)] = [("b", 1), ("a", 1)] := by
    apply List.mergeSort_of_sorted
    simp [List.pairwise_cons, rankLE]
  refine ⟨h, ?_⟩
  rw [h]
  decide

/-- Claim C5 amended: `rank` returns the accumulated entries (a
permutation of the input) sorted by amount descending; equal-amount
entries keep their input (property-insertion) order — the ECMAScript
stable sort applies no key tie-break — and applying `rank` twice to
the same input yields the same output sequence (idempotence). -/
theorem claim5_amended_rank_sorted_stable_idempotent {K : Type} (l : List (K × ℚ)) :
    (rank l).Perm l
    ∧ (rank l).Pairwise (fun a b => b.2 ≤ a.2)
    ∧ (∀ q : ℚ,
        (rank l).filter (fun e => decide (e.2 = q)) = l.filter (fun e => decide (e.2 = q)))
    ∧ rank (rank l) = rank l := by
  refine ⟨List.mergeSort_perm l rankLE, ?_, ?_,
    List.mergeSort_of_sorted (List.sorted_mergeSort rankLE_trans rankLE_total l)⟩
  · exact (List.sorted_mergeSort rankLE_trans rankLE_total l).imp
      (fun h => by simpa [rankLE] using h)
  · intro q
    have hpw : (l.filter (fun e => decide (e.2 = q))).Pairwise
        (fun a b : K × ℚ => rankLE a b = true) := by
      apply List.pairwise_of_forall_mem_list
      intro a ha b hb
      have ha' := List.of_mem_filter ha
      have hb' := List.of_mem_filter hb
      simp only [decide_eq_true_eq] at ha' hb'
      simp [rankLE, ha', hb']
    have h1 : List.Sublist (l.filter (fun e => decide (e.2 = q))) (rank l) :=
      List.sublist_mergeSort rankLE_trans rankLE_total hpw (List.filter_sublist l)
    have h2 : List.Sublist
        ((l.filter (fun e => decide (e.2 = q))).filter (fun e => decide (e.2 = q)))
        ((rank l).filter (fun e => decide (e.2 = q))) :=
      h1.filter _
    rw [List.filter_eq_self.mpr (fun a ha => (List.mem_filter.mp ha).2)] at h2
    have hlen : ((rank l).filter (fun e => decide (e.2 = q))).length
        = (l.filter (fun e => decide (e.2 = q))).length :=
      ((List.mergeSort_perm l rankLE).filter _).length_eq
    exact (h2.eq_of_length hlen.symm).symm

/-- Claim C10: in every successful run, the by-service ranked list that
is rendered and included in the returned summary is the 10-entry
truncation of the full ranked array (so it has at most 10 entries and
nothing exists past index 9), and likewise for the by-tag ranked list
whenever the tag query succeeded. -/
theorem claim10_topN_truncation (costTagKey : List Char) (c : CollabResults)
    (days : List (List BillingGroup)) (r : RunReport)
    (h : c.serviceDays = .ok days) (hr : runHandler costTagKey c = .ok r) :
    r.topServices = (getCostByServiceArr days).take 10
    ∧ r.topServices.length ≤ 10
    ∧ (∀ i, 10 ≤ i → r.topServices.get? i = none)
    ∧ (∀ tdays tl, c.tagDays = .ok tdays → r.tagTop = some (.ok tl) →
        tl = (getCostByTagArr costTagKey tdays).take 10 ∧ tl.length ≤ 10) := by
  obtain ⟨sd, e2, dy, td⟩ := c
  simp only at h
  subst h
  simp only [runHandler, Except.ok.injEq] at hr
  subst hr
  refine ⟨rfl, ?_, ?_, ?_⟩
  · simp only [List.length_take]
    exact Nat.min_le_left _ _
  · intro i hi
    apply List.get?_eq_none.mpr
    calc ((getCostByServiceArr days).take 10).length ≤ 10 := by
          simp only [List.length_take]; exact Nat.min_le_left _ _
      _ ≤ i := hi
  · intro tdays tl htd htop
    subst htd
    by_cases hk : costTagKey = []
    · simp [hk] at htop
    · simp only [hk, if_false, Option.some.injEq, Except.ok.injEq] at htop
      refine ⟨htop.symm, ?_⟩
      rw [← htop]
      simp only [List.length_take]
      exact Nat.min_le_left _ _

/-- Claim C10 witness: the truncation theorem applied to a concrete
successful run. -/
theorem claim10_topN_truncation_witness :
    ∃ r : RunReport,
      runHandler []
        { serviceDays := Except.ok []
          ec2Section := Except.ok ""
          dynamoSection := Except.ok ("", 0)
          tagDays := Except.ok [] } = .ok r
      ∧ r.topServices.length ≤ 10 := by
  have hr : runHandler []
      { serviceDays := Except.ok []
        ec2Section := Except.ok ""
        dynamoSection := Except.ok ("", 0)
        tagDays := Except.ok [] } = .ok
      { topServices := []
        ec2Part := ""
        ddbPart := ""
        ddbEstimatedMonthlyCost := some 0
        tagTop := none
        deliveryAttempted := true
        statusCode := 200 } := by
    simp [runHandler, getCostByServiceArr, accumulateService, accumulateBy, rank]
  exact ⟨_, hr,
    (claim10_topN_truncation [] _ [] _ rfl hr).2.1⟩

end CostHygiene
